import Mathlib

/-
Verification development for the ESM-Scan mutation-scoring engine
(esmscan.py).  The Python source is shallowly embedded: pure fragments of
the code become Lean functions, the PyTorch model and the tokenizer
alphabet are abstracted as function parameters (they are declared external
collaborators by the design), numeric log-probabilities are modelled as
rationals, and Python failure modes (assertion failures, IndexError,
numpy reshape errors) become constructors of an explicit error type.
Stateful instrumentation (which token positions were masked by forward
passes) is made explicit in return values so that pass-counting
properties can be stated.
-/

namespace ESMScan

/-- Errors surfaced by the embedded code: the wild-type/sequence
mismatch assertion in label_row and compute_pppl, a Python IndexError
from out-of-range string indexing, the MSA-Transformer strategy
assertion in main, and the numpy reshape failure in plot_esm_scan. -/
inductive ScanError : Type where
  | inconsistentMutation : ScanError
  | indexError : ScanError
  | msaStrategy : ScanError
  | shapeMismatch : ScanError
deriving DecidableEq, Repr

/-- The fixed 20-letter amino-acid alphabet string used by
generate_all_mutations and by the plot column labels
(the literal ACDEFGHIKLMNPQRSTVWY in the source). -/
def aas : String := "ACDEFGHIKLMNPQRSTVWY"

/-- Serialization of a mutation label: sequence[i] + str(i + 1) + aa,
exactly the string written by generate_all_mutations. -/
def mkLabel (wt : Char) (pos : Nat) (mt : Char) : String :=
  String.mk [wt] ++ toString pos ++ String.mk [mt]

/-- The mutation labels written by generate_all_mutations after the
header line: the double loop for i in range(len(sequence)), for aa in
aas, emitting sequence[i] + str(i+1) + aa. -/
def all_mutation_labels (sequence : String) : List String :=
  (List.range sequence.length).flatMap (fun i =>
    aas.toList.map (fun aa => mkLabel (sequence.toList.getD i 'A') (i + 1) aa))

/-- generate_all_mutations, modelled as the list of lines written to the
output file: the header line mutant followed by the label lines. -/
def generate_all_mutations (sequence : String) : List String :=
  String.mk ['m', 'u', 't', 'a', 'n', 't'] :: all_mutation_labels sequence

/-- A mutation label, the parsed form of the row string wt ++ str(pos) ++ mt:
in the source, row[0] is the wild-type symbol, int(row[1:-1]) the 1-based
position (an arbitrary integer once parsed), and row[-1] the mutant symbol. -/
structure MutLabel : Type where
  wt : Char
  pos : Int
  mt : Char
deriving DecidableEq, Repr

/-- The tokenizer alphabet, an external collaborator: symbol-to-token index,
and the special mask, begin-of-sequence and end-of-sequence token indices. -/
structure Alphabet : Type where
  get_idx : Char → Nat
  mask_idx : Nat
  cls_idx : Nat
  eos_idx : Nat

/-- The frozen language model, an external collaborator: a pure function
from a token list to per-position per-vocabulary-token log-probabilities
(the result of log_softmax of the logits, batch dimension dropped). -/
abbrev Model : Type := List Nat → Nat → Nat → ℚ

/-- Python string indexing sequence[i] for an integer i: indices in
[0, len) read left to right, indices in [-len, 0) count from the end,
anything else raises IndexError (modelled as none). -/
def pyGetChar (s : String) (i : Int) : Option Char :=
  if 0 ≤ i ∧ i < (s.length : Int) then some (s.toList.getD i.toNat 'A')
  else if -(s.length : Int) ≤ i ∧ i < 0 then
    some (s.toList.getD (i + (s.length : Int)).toNat 'A')
  else none

/-- Clamped effective index of a Python slice bound, as used by
sequence[:idx] and sequence[(idx+1):]. -/
def pySliceIdx (len : Nat) (i : Int) : Nat :=
  if i < 0 then (max 0 ((len : Int) + i)).toNat else min i.toNat len

/-- The substitution sequence[:idx] + mt + sequence[(idx+1):] performed by
compute_pppl, with Python slice semantics. -/
def pySubstitute (s : String) (idx : Int) (mt : Char) : String :=
  String.mk (s.toList.take (pySliceIdx s.toList.length idx) ++ mt ::
    s.toList.drop (pySliceIdx s.toList.length (idx + 1)))

/-- Python range(a, b) over naturals (empty when b ≤ a). -/
def pyRange (a b : Nat) : List Nat := List.range' a (b - a)

/-- The batch converter applied to a single (label, sequence) pair for an
ESM-1b/ESM-1v style alphabet: a begin-of-sequence token, the per-symbol
tokens, then an end-of-sequence token. -/
def batch_convert (alphabet : Alphabet) (s : String) : List Nat :=
  alphabet.cls_idx :: (s.toList.map alphabet.get_idx ++ [alphabet.eos_idx])

/-- batch_tokens.clone() followed by batch_tokens_masked[0, i] = mask_idx:
a fresh copy of the token list with position i overwritten by the mask
token. -/
def maskAt (tokens : List Nat) (mask : Nat) (i : Nat) : List Nat :=
  tokens.set i mask

/-- label_row from the source: parse the row into (wt, idx, mt) with
idx = pos - offset_idx, assert sequence[idx] == wt (AssertionError becomes
inconsistentMutation; an out-of-range index becomes indexError), then
return token_probs[0, 1 + idx, mt_encoded] - token_probs[0, 1 + idx,
wt_encoded].  No forward pass happens here: token_probs is a tensor
computed by the caller. -/
def label_row (row : MutLabel) (sequence : String) (token_probs : Int → Int → ℚ)
    (alphabet : Alphabet) (offset_idx : Int) : Except ScanError ℚ :=
  let wt := row.wt
  let idx := row.pos - offset_idx
  let mt := row.mt
  match pyGetChar sequence idx with
  | none => Except.error ScanError.indexError
  | some c =>
    if c = wt then
      Except.ok (token_probs (1 + idx) (alphabet.get_idx mt : Int) -
        token_probs (1 + idx) (alphabet.get_idx wt : Int))
    else Except.error ScanError.inconsistentMutation

/-- compute_pppl from the source, instrumented to also return the list of
token positions masked by its forward passes (one list entry per model
invocation).  After the assert, the mutant symbol is substituted into the
sequence, the mutated sequence is encoded, and for i in
range(1, len(sequence) - 1) the token at position i is masked, one
forward pass is run, and token_probs[0, i, get_idx(sequence[i])] is
accumulated; the result is the sum.  On an assertion failure or index
error no forward pass is performed (the returned list is empty). -/
def compute_pppl (row : MutLabel) (sequence : String) (model : Model)
    (alphabet : Alphabet) (offset_idx : Int) : List Nat × Except ScanError ℚ :=
  let wt := row.wt
  let idx := row.pos - offset_idx
  let mt := row.mt
  match pyGetChar sequence idx with
  | none => ([], Except.error ScanError.indexError)
  | some c =>
    if c = wt then
      let sequence2 := pySubstitute sequence idx mt
      let batch_tokens := batch_convert alphabet sequence2
      let positions := pyRange 1 (sequence2.length - 1)
      let log_probs := positions.map (fun i =>
        model (maskAt batch_tokens alphabet.mask_idx i) i
          (alphabet.get_idx (sequence2.toList.getD i 'A')))
      (positions, Except.ok log_probs.sum)
    else ([], Except.error ScanError.inconsistentMutation)

/-- The masked-marginals branch of main, instrumented: for i in
range(batch_tokens.size(1)) the token at position i is masked and one
forward pass is run; row i of the pass that masked position i is kept
(token_probs[:, i]), and torch.cat stacks those rows into the cached
tensor handed to label_row.  The first component is the list of masked
positions (one per forward pass); the second is the cached tensor as a
function of (position, vocabulary index). -/
def masked_marginals (sequence : String) (model : Model) (alphabet : Alphabet) :
    List Nat × (Int → Int → ℚ) :=
  let batch_tokens := batch_convert alphabet sequence
  let positions := List.range batch_tokens.length
  let cached := fun (p v : Int) =>
    if 0 ≤ p ∧ p < (batch_tokens.length : Int) then
      model (maskAt batch_tokens alphabet.mask_idx p.toNat) p.toNat v.toNat
    else 0
  (positions, cached)

/-- numpy reshape of the score column to (rows, cols) as used by
plot_esm_scan: succeeds only when the element count matches exactly
(numpy raises ValueError otherwise, modelled as shapeMismatch), and lays
the data out row-major. -/
def np_reshape (xs : List ℚ) (rows cols : Nat) : Except ScanError (List (List ℚ)) :=
  if xs.length = rows * cols then
    Except.ok ((List.range rows).map (fun r => (xs.drop (r * cols)).take cols))
  else Except.error ScanError.shapeMismatch

/-- The result table read back by plot_esm_scan: the mutant column
(df.columns[0]) followed by one score column per evaluated model, in
model order. -/
structure ScanTable : Type where
  mutants : List String
  scores : List (List ℚ)

/-- The matrix d built by plot_esm_scan:
np.array(df[df.columns[1]]).reshape(len(seq), 20) — the reshape of the
first score column (column index 1 of the CSV) only. -/
def plot_esm_scan_matrix (seq : String) (df : ScanTable) : Except ScanError (List (List ℚ)) :=
  np_reshape (df.scores.getD 0 []) seq.length 20

/-- The row index labels of the matrix data frame df2 in plot_esm_scan:
seq[x] + str(x + 1) for x in range(len(seq)). -/
def matrix_row_labels (seq : String) : List String :=
  (List.range seq.length).map (fun x =>
    String.mk [seq.toList.getD x 'A'] ++ toString (x + 1))

/-- The column labels of the matrix data frame df2 in plot_esm_scan:
the 20 alphabet letters in fixed order. -/
def matrix_col_labels : List Char := aas.toList

/-- A model as seen by the per-model loop of main: whether
isinstance(model, MSATransformer) holds. -/
structure LoadedModel : Type where
  isMSA : Bool
deriving DecidableEq, Repr

/-- The per-model loop of main, abstracted to what decides strategy
compatibility: models are processed in list order; on reaching an MSA
Transformer with scoring_strategy different from masked-marginals the
assert fails and the program aborts; otherwise the model is scored and
the loop continues.  Returns the number of models fully scored before
termination and the fatal error, if any. -/
def run_models : List LoadedModel → String → Nat × Option ScanError
  | [], _ => (0, none)
  | m :: ms, strategy =>
    if m.isMSA = true ∧ strategy ≠ "masked-marginals" then
      (0, some ScanError.msaStrategy)
    else
      let r := run_models ms strategy
      (r.1 + 1, r.2)

/-- Concrete three-symbol wild-type sequence used by witnesses. -/
def seqACD : String := "ACD"

/-- Concrete two-symbol wild-type sequence used by witnesses. -/
def seqAC : String := "AC"

/-- Concrete alphabet used by witnesses: the token index of a symbol is
its character code, with small distinct special token indices. -/
def testAlphabet : Alphabet :=
  Alphabet.mk (fun c => c.toNat) 32 0 2

/-- Concrete model used by witnesses: log-probability depends on the
masked token list, the position and the vocabulary index. -/
def testModel : Model :=
  fun tokens p v => (tokens.sum : ℚ) + (p : ℚ) + (v : ℚ)

/-- Concrete token-probability tensor used by witnesses. -/
def testTP : Int → Int → ℚ :=
  fun p v => (p : ℚ) - (v : ℚ)

/-- The default scoring strategy name of the command line. -/
def strategyWtMarginals : String := "wt-marginals"

/-- Length of a flat-mapped list whose blocks all have length k. -/
lemma length_flatMap_const {α β : Type} (f : α → List β) (k : Nat) :
    ∀ l : List α, (∀ a ∈ l, (f a).length = k) → (l.flatMap f).length = k * l.length := by
  intro l
  induction l with
  | nil => intro _; simp
  | cons x xs ih =>
    intro h
    rw [List.flatMap_cons, List.length_append,
      ih (fun a ha => h a (List.mem_cons_of_mem x ha)),
      h x (List.mem_cons_self x xs), List.length_cons]
    ring

/-- Indexing into a flat-mapped list whose blocks all have length k:
entry k * i + j lives in block i at inner index j. -/
lemma getElem?_flatMap_const {α β : Type} (f : α → List β) (k : Nat) :
    ∀ (l : List α) (i j : Nat) (a : α), (∀ x ∈ l, (f x).length = k) →
      l[i]? = some a → j < k → (l.flatMap f)[k * i + j]? = (f a)[j]? := by
  intro l
  induction l with
  | nil => intro i j a _ hget _; simp at hget
  | cons x xs ih =>
    intro i j a hall hget hj
    rw [List.flatMap_cons]
    cases i with
    | zero =>
      have hx : x = a := by simpa using hget
      subst hx
      rw [Nat.mul_zero, Nat.zero_add]
      exact List.getElem?_append_left (by
        rw [hall x (List.mem_cons_self x xs)]; exact hj)
    | succ n =>
      have hget2 : xs[n]? = some a := by simpa using hget
      have hfx : (f x).length = k := hall x (List.mem_cons_self x xs)
      have hle : (f x).length ≤ k * (n + 1) + j := by
        rw [hfx, Nat.mul_succ]
        generalize k * n = A
        omega
      rw [List.getElem?_append_right hle, hfx]
      have harith : k * (n + 1) + j - k = k * n + j := by
        rw [Nat.mul_succ]
        generalize k * n = A
        omega
      rw [harith]
      exact ih n j a (fun y hy => hall y (List.mem_cons_of_mem x hy)) hget2 hj

/-- A valid index yields the default-free getD value through getElem?. -/
lemma getElem?_eq_some_getD {α : Type} (l : List α) (n : Nat) (d : α) (h : n < l.length) :
    l[n]? = some (l.getD n d) := by
  simp [List.getD_eq_getElem?_getD, List.getElem?_eq_getElem h]

/-- On a consistent label (the indexed symbol equals the wild-type
symbol) label_row returns the log-odds difference read from the tensor
at row 1 + idx. -/
lemma label_row_match (row : MutLabel) (S : String) (tp : Int → Int → ℚ)
    (alphabet : Alphabet) (offset : Int) (c : Char)
    (hc : pyGetChar S (row.pos - offset) = some c) (h : c = row.wt) :
    label_row row S tp alphabet offset =
      Except.ok (tp (1 + (row.pos - offset)) (alphabet.get_idx row.mt : Int) -
        tp (1 + (row.pos - offset)) (alphabet.get_idx row.wt : Int)) := by
  simp only [label_row, hc]
  rw [if_pos h]

/-- On an inconsistent label label_row fails with the wild-type mismatch
assertion. -/
lemma label_row_mismatch (row : MutLabel) (S : String) (tp : Int → Int → ℚ)
    (alphabet : Alphabet) (offset : Int) (c : Char)
    (hc : pyGetChar S (row.pos - offset) = some c) (h : ¬ c = row.wt) :
    label_row row S tp alphabet offset = Except.error ScanError.inconsistentMutation := by
  simp only [label_row, hc]
  rw [if_neg h]

/-- On a consistent label compute_pppl does not fail: its score component
is a successful sum. -/
lemma compute_pppl_match (row : MutLabel) (S : String) (model : Model)
    (alphabet : Alphabet) (offset : Int) (c : Char)
    (hc : pyGetChar S (row.pos - offset) = some c) (h : c = row.wt) :
    ∃ q, (compute_pppl row S model alphabet offset).2 = Except.ok q := by
  simp only [compute_pppl, hc]
  rw [if_pos h]
  exact ⟨_, rfl⟩

/-- On an inconsistent label compute_pppl fails with the wild-type
mismatch assertion having performed no forward pass. -/
lemma compute_pppl_mismatch (row : MutLabel) (S : String) (model : Model)
    (alphabet : Alphabet) (offset : Int) (c : Char)
    (hc : pyGetChar S (row.pos - offset) = some c) (h : ¬ c = row.wt) :
    compute_pppl row S model alphabet offset =
      ([], Except.error ScanError.inconsistentMutation) := by
  simp only [compute_pppl, hc]
  rw [if_neg h]

/-- C3: for every non-empty wild-type sequence S, generate_all_mutations
produces (after the header line) exactly len(S) * 20 mutation labels in
position-major then fixed-alphabet order: for every 0-based position i
and alphabet index j the label at offset 20 * i + j is
S[i] + (i + 1) + aas[j], which for j pointing at S[i] is the no-op
label. -/
theorem generate_all_mutations_exhaustive (S : String) (i j : Nat)
    (hi : i < S.length) (hj : j < 20) :
    (generate_all_mutations S).length = 1 + 20 * S.length ∧
    (generate_all_mutations S)[1 + (20 * i + j)]? =
      some (mkLabel (S.toList.getD i 'A') (i + 1) (aas.toList.getD j 'A')) := by
  have haas : aas.toList.length = 20 := by decide
  have hblocks : ∀ x ∈ List.range S.length,
      ((fun p => aas.toList.map (fun aa => mkLabel (S.toList.getD p 'A') (p + 1) aa)) x).length
        = 20 := by
    intro x _
    rw [List.length_map, haas]
  constructor
  · show (all_mutation_labels S).length + 1 = 1 + 20 * S.length
    rw [all_mutation_labels, length_flatMap_const _ 20 _ hblocks, List.length_range]
    ring
  · have hstep : (generate_all_mutations S)[1 + (20 * i + j)]? =
        (all_mutation_labels S)[20 * i + j]? := by
      rw [Nat.add_comm 1 (20 * i + j)]
      exact List.getElem?_cons_succ
    rw [hstep, all_mutation_labels,
      getElem?_flatMap_const _ 20 _ i j i hblocks (List.getElem?_range hi) hj,
      List.getElem?_map, getElem?_eq_some_getD aas.toList j 'A' (by rw [haas]; exact hj)]
    rfl

/-- Witness for C3 at S = ACD, i = 1, j = 2: the label at offset
20 * 1 + 2 after the header is C2D. -/
theorem generate_all_mutations_exhaustive_witness :
    1 < seqACD.length ∧ 2 < 20 ∧
    ((generate_all_mutations seqACD).length = 1 + 20 * seqACD.length ∧
      (generate_all_mutations seqACD)[1 + (20 * 1 + 2)]? =
        some (mkLabel (seqACD.toList.getD 1 'A') (1 + 1) (aas.toList.getD 2 'A'))) :=
  ⟨by decide, by decide, generate_all_mutations_exhaustive seqACD 1 2 (by decide) (by decide)⟩

/-- C4: with the default offset 1 and a label position inside the
sequence, both scoring paths (label_row, used by the wt-marginals and
masked-marginals strategies, and compute_pppl, used by pseudo-ppl) fail
with the wild-type mismatch assertion exactly when S[pos - 1] differs
from the label's wild-type symbol, and on that failure compute_pppl has
performed no forward pass (label_row performs none by construction: it
only reads a tensor computed by its caller). -/
theorem scoring_inconsistent_iff (S : String) (row : MutLabel) (tp : Int → Int → ℚ)
    (model : Model) (alphabet : Alphabet)
    (hpos : 1 ≤ row.pos) (hle : row.pos ≤ (S.length : Int)) :
    (label_row row S tp alphabet 1 = Except.error ScanError.inconsistentMutation ↔
      S.toList.getD (row.pos - 1).toNat 'A' ≠ row.wt) ∧
    ((compute_pppl row S model alphabet 1).2 = Except.error ScanError.inconsistentMutation ↔
      S.toList.getD (row.pos - 1).toNat 'A' ≠ row.wt) ∧
    (S.toList.getD (row.pos - 1).toNat 'A' ≠ row.wt →
      (compute_pppl row S model alphabet 1).1 = []) := by
  have h1 : 0 ≤ row.pos - 1 := by omega
  have h2 : row.pos - 1 < (S.length : Int) := by omega
  have hc : pyGetChar S (row.pos - 1) = some (S.toList.getD (row.pos - 1).toNat 'A') := by
    unfold pyGetChar
    rw [if_pos ⟨h1, h2⟩]
  refine ⟨⟨?_, ?_⟩, ⟨?_, ?_⟩, ?_⟩
  · intro herr
    by_contra hEq
    rw [label_row_match row S tp alphabet 1 _ hc hEq] at herr
    exact Except.noConfusion herr
  · intro hne
    exact label_row_mismatch row S tp alphabet 1 _ hc hne
  · intro herr
    by_contra hEq
    obtain ⟨q, hq⟩ := compute_pppl_match row S model alphabet 1 _ hc hEq
    rw [hq] at herr
    exact Except.noConfusion herr
  · intro hne
    rw [compute_pppl_mismatch row S model alphabet 1 _ hc hne]
  · intro hne
    rw [compute_pppl_mismatch row S model alphabet 1 _ hc hne]

/-- Witness for C4 at S = ACD and label G1C: position 1 holds A, not G,
so both scoring paths fail with the mismatch assertion and pseudo-ppl
performs no forward pass. -/
theorem scoring_inconsistent_iff_witness :
    (1 : Int) ≤ (MutLabel.mk 'G' 1 'C').pos ∧
    (MutLabel.mk 'G' 1 'C').pos ≤ (seqACD.length : Int) ∧
    ((label_row (MutLabel.mk 'G' 1 'C') seqACD testTP testAlphabet 1 =
        Except.error ScanError.inconsistentMutation ↔
      seqACD.toList.getD ((MutLabel.mk 'G' 1 'C').pos - 1).toNat 'A' ≠
        (MutLabel.mk 'G' 1 'C').wt) ∧
    ((compute_pppl (MutLabel.mk 'G' 1 'C') seqACD testModel testAlphabet 1).2 =
        Except.error ScanError.inconsistentMutation ↔
      seqACD.toList.getD ((MutLabel.mk 'G' 1 'C').pos - 1).toNat 'A' ≠
        (MutLabel.mk 'G' 1 'C').wt) ∧
    (seqACD.toList.getD ((MutLabel.mk 'G' 1 'C').pos - 1).toNat 'A' ≠
        (MutLabel.mk 'G' 1 'C').wt →
      (compute_pppl (MutLabel.mk 'G' 1 'C') seqACD testModel testAlphabet 1).1 = [])) :=
  ⟨by decide, by decide,
    scoring_inconsistent_iff seqACD (MutLabel.mk 'G' 1 'C') testTP testModel testAlphabet
      (by decide) (by decide)⟩

/-- C6: the wild-type-marginal score of a no-op mutation label (equal
wild-type and mutant symbols) is exactly 0 for every sequence, position
and token-probability tensor, whenever the label passes the consistency
check: the two tensor reads coincide and the difference vanishes. -/
theorem label_row_noop_zero (S : String) (tp : Int → Int → ℚ) (alphabet : Alphabet)
    (offset : Int) (row : MutLabel) (hwt : row.wt = row.mt)
    (hc : pyGetChar S (row.pos - offset) = some row.wt) :
    label_row row S tp alphabet offset = Except.ok 0 := by
  simp [label_row, hc, hwt]

/-- Witness for C6 at S = ACD and the no-op label C2C. -/
theorem label_row_noop_zero_witness :
    (MutLabel.mk 'C' 2 'C').wt = (MutLabel.mk 'C' 2 'C').mt ∧
    pyGetChar seqACD ((MutLabel.mk 'C' 2 'C').pos - 1) = some (MutLabel.mk 'C' 2 'C').wt ∧
    label_row (MutLabel.mk 'C' 2 'C') seqACD testTP testAlphabet 1 = Except.ok 0 :=
  ⟨rfl, by decide,
    label_row_noop_zero seqACD testTP testAlphabet 1 (MutLabel.mk 'C' 2 'C') rfl (by decide)⟩

/-- C9: a label position strictly below the offset makes the computed
0-based index negative; Python string indexing then counts from the end
of the sequence instead of raising, so label_row never fails with an
out-of-range error there, and its consistency check compares the label's
wild-type symbol against the symbol at index len + pos - offset, counted
from the end — which can match the wrong residue and let scoring
proceed. -/
theorem label_row_negative_index (S : String) (row : MutLabel) (tp : Int → Int → ℚ)
    (alphabet : Alphabet) (offset : Int) (hneg : row.pos < offset)
    (hrange : offset - row.pos ≤ (S.length : Int)) :
    label_row row S tp alphabet offset ≠ Except.error ScanError.indexError ∧
    (label_row row S tp alphabet offset = Except.error ScanError.inconsistentMutation ↔
      S.toList.getD (row.pos - offset + (S.length : Int)).toNat 'A' ≠ row.wt) := by
  have h1 : ¬ (0 ≤ row.pos - offset ∧ row.pos - offset < (S.length : Int)) := by omega
  have h2 : -(S.length : Int) ≤ row.pos - offset := by omega
  have h3 : row.pos - offset < 0 := by omega
  have hc : pyGetChar S (row.pos - offset) =
      some (S.toList.getD (row.pos - offset + (S.length : Int)).toNat 'A') := by
    unfold pyGetChar
    rw [if_neg h1, if_pos ⟨h2, h3⟩]
  refine ⟨?_, ?_, ?_⟩
  · by_cases hEq : S.toList.getD (row.pos - offset + (S.length : Int)).toNat 'A' = row.wt
    · rw [label_row_match row S tp alphabet offset _ hc hEq]
      simp
    · rw [label_row_mismatch row S tp alphabet offset _ hc hEq]
      simp
  · intro herr
    by_contra hEq
    rw [label_row_match row S tp alphabet offset _ hc hEq] at herr
    exact Except.noConfusion herr
  · intro hne
    exact label_row_mismatch row S tp alphabet offset _ hc hne

/-- Witness for C9 at S = AC, label C0A, offset 1: index -1 reads the
final residue C, the check passes against that wrong residue, and no
out-of-range error is raised. -/
theorem label_row_negative_index_witness :
    (MutLabel.mk 'C' 0 'A').pos < 1 ∧
    1 - (MutLabel.mk 'C' 0 'A').pos ≤ (seqAC.length : Int) ∧
    (label_row (MutLabel.mk 'C' 0 'A') seqAC testTP testAlphabet 1 ≠
        Except.error ScanError.indexError ∧
      (label_row (MutLabel.mk 'C' 0 'A') seqAC testTP testAlphabet 1 =
          Except.error ScanError.inconsistentMutation ↔
        seqAC.toList.getD ((MutLabel.mk 'C' 0 'A').pos - 1 + (seqAC.length : Int)).toNat 'A' ≠
          (MutLabel.mk 'C' 0 'A').wt)) :=
  ⟨by decide, by decide,
    label_row_negative_index seqAC (MutLabel.mk 'C' 0 'A') testTP testAlphabet 1
      (by decide) (by decide)⟩

/-- Each chunk of the row-major reshape has exactly cols entries when the
element count is rows * cols. -/
lemma reshape_chunks_length (cols rows : Nat) (xs : List ℚ) (hlen : xs.length = rows * cols) :
    ∀ row ∈ (List.range rows).map (fun r => (xs.drop (r * cols)).take cols),
      row.length = cols := by
  intro row hrow
  simp only [List.mem_map, List.mem_range] at hrow
  obtain ⟨r, hr, rfl⟩ := hrow
  rw [List.length_take, List.length_drop, hlen]
  have h1 : (r + 1) * cols ≤ rows * cols := Nat.mul_le_mul_right cols (Nat.succ_le_of_lt hr)
  rw [Nat.succ_mul] at h1
  generalize r * cols = A at *
  generalize rows * cols = B at *
  omega

/-- The row-major reshape loses and adds nothing: flattening the chunks
recovers the original list when the element count matches. -/
lemma reshape_chunks_flatten (cols : Nat) :
    ∀ (rows : Nat) (xs : List ℚ), xs.length = rows * cols →
      ((List.range rows).map (fun r => (xs.drop (r * cols)).take cols)).flatten = xs := by
  intro rows
  induction rows with
  | zero =>
    intro xs h
    rw [Nat.zero_mul] at h
    rw [List.range_zero, List.map_nil, List.flatten_nil]
    exact (List.eq_nil_of_length_eq_zero h).symm
  | succ n ih =>
    intro xs h
    rw [List.range_succ_eq_map, List.map_cons, List.flatten_cons, List.map_map]
    have hcomp : ((fun r => (xs.drop (r * cols)).take cols) ∘ Nat.succ) =
        (fun r => ((xs.drop cols).drop (r * cols)).take cols) := by
      funext r
      show (xs.drop (Nat.succ r * cols)).take cols = ((xs.drop cols).drop (r * cols)).take cols
      rw [List.drop_drop]
      congr 2
      rw [Nat.succ_mul]
      ring
    rw [hcomp, ih (xs.drop cols) (by rw [List.length_drop, h, Nat.succ_mul]; omega)]
    rw [Nat.zero_mul, List.drop_zero, List.take_append_drop]

/-- C5: reshaping an exhaustive-scan score table of 20 * len(S) rows in
plot_esm_scan yields a matrix of len(S) rows of 20 columns holding
exactly the table's scores, with row r labelled S[r] + (r + 1) and the
columns labelled by the 20 substitution letters in fixed alphabet
order. -/
theorem plot_esm_scan_matrix_shape (S : String) (muts : List String) (xs : List ℚ)
    (rest : List (List ℚ)) (h : xs.length = 20 * S.length) :
    ∃ m, plot_esm_scan_matrix S (ScanTable.mk muts (xs :: rest)) = Except.ok m ∧
      m.length = S.length ∧ (∀ row ∈ m, row.length = 20) ∧ m.flatten = xs ∧
      (∀ r, r < S.length → (matrix_row_labels S)[r]? =
        some (String.mk [S.toList.getD r 'A'] ++ toString (r + 1))) ∧
      matrix_col_labels = aas.toList := by
  have h2 : xs.length = S.length * 20 := by rw [h]; ring
  refine ⟨(List.range S.length).map (fun r => (xs.drop (r * 20)).take 20), ?_, ?_, ?_, ?_, ?_, rfl⟩
  · show np_reshape xs S.length 20 = _
    unfold np_reshape
    rw [if_pos h2]
  · rw [List.length_map, List.length_range]
  · exact reshape_chunks_length 20 S.length xs h2
  · exact reshape_chunks_flatten 20 S.length xs h2
  · intro r hr
    rw [matrix_row_labels, List.getElem?_map, List.getElem?_range hr]
    rfl

/-- Witness for C5 at S = ACD and a 60-entry score column. -/
theorem plot_esm_scan_matrix_shape_witness :
    (List.replicate 60 (0 : ℚ)).length = 20 * seqACD.length ∧
    (∃ m, plot_esm_scan_matrix seqACD (ScanTable.mk [] (List.replicate 60 (0 : ℚ) :: [])) =
        Except.ok m ∧
      m.length = seqACD.length ∧ (∀ row ∈ m, row.length = 20) ∧
      m.flatten = List.replicate 60 (0 : ℚ) ∧
      (∀ r, r < seqACD.length → (matrix_row_labels seqACD)[r]? =
        some (String.mk [seqACD.toList.getD r 'A'] ++ toString (r + 1))) ∧
      matrix_col_labels = aas.toList) :=
  ⟨by decide, plot_esm_scan_matrix_shape seqACD [] (List.replicate 60 (0 : ℚ)) [] (by decide)⟩

/-- C8: a score table whose row count differs from len(sequence) * 20
makes the matrix reshape fail with the shape-mismatch error, and no
matrix (truncated, padded or otherwise) is produced. -/
theorem np_reshape_mismatch (L : Nat) (xs : List ℚ) (h : xs.length ≠ 20 * L) :
    np_reshape xs L 20 = Except.error ScanError.shapeMismatch ∧
    ∀ m, ¬ (np_reshape xs L 20 = Except.ok m) := by
  have h2 : ¬ (xs.length = L * 20) := by rw [Nat.mul_comm]; exact h
  constructor
  · unfold np_reshape
    rw [if_neg h2]
  · intro m hm
    unfold np_reshape at hm
    rw [if_neg h2] at hm
    exact Except.noConfusion hm

/-- Witness for C8: a 2-row table against a 3-symbol sequence fails the
reshape. -/
theorem np_reshape_mismatch_witness :
    ([(0 : ℚ), 1].length ≠ 20 * 3) ∧
    (np_reshape [(0 : ℚ), 1] 3 20 = Except.error ScanError.shapeMismatch ∧
      ∀ m, ¬ (np_reshape [(0 : ℚ), 1] 3 20 = Except.ok m)) :=
  ⟨by decide, np_reshape_mismatch 3 [(0 : ℚ), 1] (by decide)⟩

/-- C10: the matrix built by plot_esm_scan reads only the first model's
score column (CSV column index 1): it is exactly the reshape of that
column, and tables agreeing on that column yield identical matrices no
matter what the other evaluated models' columns hold. -/
theorem plot_esm_scan_matrix_first_model (seq : String) (muts muts2 : List String)
    (c1 : List ℚ) (rest rest2 : List (List ℚ)) :
    plot_esm_scan_matrix seq (ScanTable.mk muts (c1 :: rest)) = np_reshape c1 seq.length 20 ∧
    plot_esm_scan_matrix seq (ScanTable.mk muts2 (c1 :: rest2)) =
      plot_esm_scan_matrix seq (ScanTable.mk muts (c1 :: rest)) :=
  ⟨rfl, rfl⟩

/-- The encoded single-sequence batch has one token per symbol plus the
begin and end markers. -/
lemma batch_convert_length (alphabet : Alphabet) (s : String) :
    (batch_convert alphabet s).length = s.length + 2 := by
  simp [batch_convert]

/-- The cached masked-marginals tensor at an in-range position p is the
output row of the forward pass that masked token position p. -/
lemma masked_marginals_row (S : String) (model : Model) (alphabet : Alphabet) (p v : Nat)
    (hp : p < S.length + 2) :
    (masked_marginals S model alphabet).2 (p : Int) (v : Int) =
      model (maskAt (batch_convert alphabet S) alphabet.mask_idx p) p v := by
  have hlen : (batch_convert alphabet S).length = S.length + 2 := batch_convert_length alphabet S
  simp only [masked_marginals]
  rw [if_pos ⟨Int.natCast_nonneg p, by rw [hlen]; exact_mod_cast hp⟩]
  rw [Int.toNat_natCast, Int.toNat_natCast]

/-- C2 (amended): the masked-marginals strategy performs one forward pass
per token position of the encoded wild-type sequence — len(sequence) + 2
passes, covering the begin marker, each sequence position and the end
marker — computed once up front; and every consistent mutation label at
0-based sequence index idx is scored (through label_row with the default
offset 1) from the cached row produced by the pass that masked token
position idx + 1, the token holding sequence position idx. -/
theorem masked_marginals_pass_count_and_rows (S : String) (model : Model) (alphabet : Alphabet)
    (row : MutLabel) (idx : Nat) (hpos : row.pos = (idx : Int) + 1) (hidx : idx < S.length)
    (hmatch : S.toList.getD idx 'A' = row.wt) :
    (masked_marginals S model alphabet).1 = List.range (S.length + 2) ∧
    (masked_marginals S model alphabet).1.length = S.length + 2 ∧
    label_row row S (masked_marginals S model alphabet).2 alphabet 1 =
      Except.ok
        (model (maskAt (batch_convert alphabet S) alphabet.mask_idx (idx + 1)) (idx + 1)
            (alphabet.get_idx row.mt) -
          model (maskAt (batch_convert alphabet S) alphabet.mask_idx (idx + 1)) (idx + 1)
            (alphabet.get_idx row.wt)) := by
  have hbl : (batch_convert alphabet S).length = S.length + 2 := batch_convert_length alphabet S
  have hfst : (masked_marginals S model alphabet).1 = List.range (S.length + 2) := by
    show List.range (batch_convert alphabet S).length = _
    rw [hbl]
  refine ⟨hfst, by rw [hfst, List.length_range], ?_⟩
  have e1 : row.pos - 1 = (idx : Int) := by rw [hpos]; ring
  have hc : pyGetChar S (row.pos - 1) = some row.wt := by
    rw [e1]
    unfold pyGetChar
    rw [if_pos ⟨Int.natCast_nonneg idx, by exact_mod_cast hidx⟩]
    rw [Int.toNat_natCast, hmatch]
  rw [label_row_match row S _ alphabet 1 _ hc rfl]
  have e2 : 1 + (row.pos - 1) = ((idx + 1 : Nat) : Int) := by rw [hpos]; push_cast; ring
  rw [e2]
  rw [masked_marginals_row S model alphabet (idx + 1) (alphabet.get_idx row.mt) (by omega)]
  rw [masked_marginals_row S model alphabet (idx + 1) (alphabet.get_idx row.wt) (by omega)]

/-- Counterexample to C2 as stated: on the 3-symbol sequence ACD the
masked-marginals strategy performs 5 forward passes (one per token
position, markers included), not len(sequence) = 3. -/
theorem masked_marginals_pass_count_counterexample :
    ¬ ((masked_marginals seqACD testModel testAlphabet).1.length = seqACD.length) := by
  decide

/-- Witness for the amended C2 at S = ACD, label C2D (sequence index 1):
the score is read from the rows of the pass that masked token position
2. -/
theorem masked_marginals_pass_count_and_rows_witness :
    (MutLabel.mk 'C' 2 'D').pos = ((1 : Nat) : Int) + 1 ∧ 1 < seqACD.length ∧
    seqACD.toList.getD 1 'A' = (MutLabel.mk 'C' 2 'D').wt ∧
    ((masked_marginals seqACD testModel testAlphabet).1 = List.range (seqACD.length + 2) ∧
    (masked_marginals seqACD testModel testAlphabet).1.length = seqACD.length + 2 ∧
    label_row (MutLabel.mk 'C' 2 'D') seqACD (masked_marginals seqACD testModel testAlphabet).2
        testAlphabet 1 =
      Except.ok
        (testModel (maskAt (batch_convert testAlphabet seqACD) testAlphabet.mask_idx (1 + 1))
            (1 + 1) (testAlphabet.get_idx (MutLabel.mk 'C' 2 'D').mt) -
          testModel (maskAt (batch_convert testAlphabet seqACD) testAlphabet.mask_idx (1 + 1))
            (1 + 1) (testAlphabet.get_idx (MutLabel.mk 'C' 2 'D').wt))) :=
  ⟨by decide, by decide, by decide,
    masked_marginals_pass_count_and_rows seqACD testModel testAlphabet (MutLabel.mk 'C' 2 'D') 1
      (by decide) (by decide) (by decide)⟩

/-- C7 (amended): a run whose model list contains an MSA Transformer and
whose scoring strategy is not masked-marginals aborts with the fatal
strategy assertion when that model is reached, with no silent fallback
and no scoring of that model or of any later model; the models listed
before it, however, have already been scored (when the MSA model comes
first, the error precedes all scoring). -/
theorem run_models_msa_strategy_fatal (ms1 ms2 : List LoadedModel) (strategy : String)
    (h1 : ∀ m ∈ ms1, m.isMSA = false) (h2 : strategy ≠ "masked-marginals") :
    run_models (ms1 ++ LoadedModel.mk true :: ms2) strategy =
      (ms1.length, some ScanError.msaStrategy) := by
  induction ms1 with
  | nil =>
    rw [List.nil_append]
    show (if (LoadedModel.mk true).isMSA = true ∧ strategy ≠ "masked-marginals" then
        (0, some ScanError.msaStrategy)
      else ((run_models ms2 strategy).1 + 1, (run_models ms2 strategy).2)) = _
    rw [if_pos ⟨rfl, h2⟩]
    rfl
  | cons x xs ih =>
    have hx : x.isMSA = false := h1 x (List.mem_cons_self x xs)
    have hcond : ¬ (x.isMSA = true ∧ strategy ≠ "masked-marginals") := by
      rw [hx]
      intro hfalse
      exact Bool.false_ne_true hfalse.1
    rw [List.cons_append]
    show (if x.isMSA = true ∧ strategy ≠ "masked-marginals" then
        (0, some ScanError.msaStrategy)
      else ((run_models (xs ++ LoadedModel.mk true :: ms2) strategy).1 + 1,
        (run_models (xs ++ LoadedModel.mk true :: ms2) strategy).2)) = _
    rw [if_neg hcond, ih (fun m hm => h1 m (List.mem_cons_of_mem x hm))]
    rfl

/-- Counterexample to C7 as stated: in a two-model run whose first model
is not an MSA Transformer, the wt-marginals strategy scores that first
model completely before the MSA strategy assertion aborts the run — the
fatal error is not raised at startup before any scoring. -/
theorem run_models_msa_after_scoring_counterexample :
    run_models [LoadedModel.mk false, LoadedModel.mk true] strategyWtMarginals =
      (1, some ScanError.msaStrategy) ∧
    (run_models [LoadedModel.mk false, LoadedModel.mk true] strategyWtMarginals).1 ≠ 0 := by
  constructor
  · decide
  · decide

/-- Witness for the amended C7: with the MSA Transformer as the only
model, the wt-marginals strategy aborts before any model is scored. -/
theorem run_models_msa_strategy_fatal_witness :
    (∀ m ∈ ([] : List LoadedModel), m.isMSA = false) ∧
    strategyWtMarginals ≠ "masked-marginals" ∧
    run_models ([] ++ LoadedModel.mk true :: []) strategyWtMarginals =
      (0, some ScanError.msaStrategy) :=
  ⟨fun m hm => absurd hm (List.not_mem_nil m), by decide,
    run_models_msa_strategy_fatal [] [] strategyWtMarginals
      (fun m hm => absurd hm (List.not_mem_nil m)) (by decide)⟩

/-- C1 (code bug): on the 3-symbol sequence ACD with mutation label A1C
(default offset 1), compute_pppl performs exactly one masked forward
pass — it masks only token position 1 of the mutated sequence, because
its loop runs over range(1, len(sequence) - 1) — instead of the three
passes (one per position of the mutated sequence) that the documented
pseudo-perplexity strategy requires. -/
theorem compute_pppl_pass_count_bug :
    (compute_pppl (MutLabel.mk 'A' 1 'C') seqACD testModel testAlphabet 1).1 = [1] ∧
    (compute_pppl (MutLabel.mk 'A' 1 'C') seqACD testModel testAlphabet 1).1.length ≠
      seqACD.length := by
  constructor
  · decide
  · decide

end ESMScan
